import Mathlib

/-!
Verification of the `subatomic` crate: `Subatomic32<T>` (src/subatomic32.rs)
and `Subatomic64<T>` (src/subatomic64.rs) wrap `AtomicU32` / `AtomicU64`
around any `Copy` type of exactly matching byte size, bridging it to the
hardware atomic via `transmute_copy`.

The embedding models a Rust `Copy + 'static` type through its byte
representation (`CopyRepr`), the native atomic integers as natural numbers
reduced modulo `2 ^ 32` / `2 ^ 64` at every write, the `assert!` in `new`
as an `Option` (`none` = panic before anything is stored), and
`Result<T, T>` as `Except`.  Memory orderings are carried as explicit
arguments, transcribed from each call site; they are inert in this
sequential model.
-/

set_option maxHeartbeats 1000000
set_option linter.unusedVariables false

/-- Model of `core::sync::atomic::Ordering`, the memory orderings offered by
the host platform's atomic primitives. -/
inductive MemOrder where
  | Relaxed
  | Acquire
  | Release
  | AcqRel
  | SeqCst
deriving DecidableEq

/-- A Rust `Copy + 'static` type `α` of byte size `size`, seen through its byte
representation: `toBits a` is the bit pattern `transmute_copy` reads out of a
value `a` (an integer below `2 ^ (8 * size)`), and `ofBits` is the value
`transmute_copy` reconstructs from a bit pattern.  `ofBits_toBits` expresses
that both directions are bit-for-bit copies of the same `size` bytes, so
reading back exactly the bytes just written reconstructs the value. -/
structure CopyRepr (α : Type) where
  size : Nat
  toBits : α → Nat
  ofBits : Nat → α
  toBits_lt : ∀ a : α, toBits a < 2 ^ (8 * size)
  ofBits_toBits : ∀ a : α, ofBits (toBits a) = a

/-- Model of `core::sync::atomic::AtomicU32`: a 32-bit unsigned cell.  The
value is a `Nat`; every stored value is reduced modulo `2 ^ 32`.  The
`MemOrder` arguments mirror the ordering each source call site passes; they
do not affect the sequential semantics. -/
structure AtomicU32 where
  value : Nat
deriving DecidableEq

namespace AtomicU32

/-- `AtomicU32::new`. -/
def new (x : Nat) : AtomicU32 := ⟨x % 2 ^ 32⟩

/-- `AtomicU32::load`. -/
def load (st : AtomicU32) (o : MemOrder) : Nat := st.value

/-- `AtomicU32::store`. -/
def store (st : AtomicU32) (x : Nat) (o : MemOrder) : AtomicU32 := ⟨x % 2 ^ 32⟩

/-- `AtomicU32::swap`: returns the previous value and the updated cell. -/
def swap (st : AtomicU32) (x : Nat) (o : MemOrder) : Nat × AtomicU32 :=
  (st.value, ⟨x % 2 ^ 32⟩)

/-- `AtomicU32::compare_exchange`: `Ok(previous)` and the updated cell when
the current value equals `current`, otherwise `Err(actual)` and the cell
unchanged.  Never fails spuriously. -/
def compare_exchange (st : AtomicU32) (current nw : Nat) (success failure : MemOrder) :
    Except Nat Nat × AtomicU32 :=
  if st.value = current % 2 ^ 32 then (Except.ok st.value, ⟨nw % 2 ^ 32⟩)
  else (Except.error st.value, st)

/-- `AtomicU32::compare_exchange_weak`: like `compare_exchange` but may fail
spuriously; the nondeterministic choice is the explicit `spurious` flag.  A
spurious failure returns `Err(current value)` and leaves the cell unchanged. -/
def compare_exchange_weak (st : AtomicU32) (spurious : Bool) (current nw : Nat)
    (success failure : MemOrder) : Except Nat Nat × AtomicU32 :=
  if spurious then (Except.error st.value, st)
  else compare_exchange st current nw success failure

end AtomicU32

/-- Model of `core::sync::atomic::AtomicU64`, as `AtomicU32` but modulo
`2 ^ 64`. -/
structure AtomicU64 where
  value : Nat
deriving DecidableEq

namespace AtomicU64

/-- `AtomicU64::new`. -/
def new (x : Nat) : AtomicU64 := ⟨x % 2 ^ 64⟩

/-- `AtomicU64::load`. -/
def load (st : AtomicU64) (o : MemOrder) : Nat := st.value

/-- `AtomicU64::store`. -/
def store (st : AtomicU64) (x : Nat) (o : MemOrder) : AtomicU64 := ⟨x % 2 ^ 64⟩

/-- `AtomicU64::swap`: returns the previous value and the updated cell. -/
def swap (st : AtomicU64) (x : Nat) (o : MemOrder) : Nat × AtomicU64 :=
  (st.value, ⟨x % 2 ^ 64⟩)

/-- `AtomicU64::compare_exchange`. -/
def compare_exchange (st : AtomicU64) (current nw : Nat) (success failure : MemOrder) :
    Except Nat Nat × AtomicU64 :=
  if st.value = current % 2 ^ 64 then (Except.ok st.value, ⟨nw % 2 ^ 64⟩)
  else (Except.error st.value, st)

/-- `AtomicU64::compare_exchange_weak` with the spurious-failure flag made
explicit. -/
def compare_exchange_weak (st : AtomicU64) (spurious : Bool) (current nw : Nat)
    (success failure : MemOrder) : Except Nat Nat × AtomicU64 :=
  if spurious then (Except.error st.value, st)
  else compare_exchange st current nw success failure

end AtomicU64

/-- Names of the impl items a width family exposes; used to record, per source
file, which public operations and trait impls exist. -/
inductive ApiItem where
  | new
  | store
  | swap
  | load
  | compare_exchange
  | compare_exchange_weak
  | default_impl
  | debug_impl
  | display_impl
  | serialize_impl
  | deserialize_impl
deriving DecidableEq

/-- `Subatomic32<T>` (src/subatomic32.rs lines 11-14): an `AtomicU32` plus a
phantom type parameter, here carried by the `CopyRepr` argument of each
operation. -/
structure Subatomic32 where
  inner : AtomicU32
deriving DecidableEq

namespace Subatomic32

/-- Ordering at the `store` call site (src/subatomic32.rs line 61). -/
def store_ordering : MemOrder := MemOrder.SeqCst

/-- Ordering at the `swap` call site (src/subatomic32.rs line 68). -/
def swap_ordering : MemOrder := MemOrder.SeqCst

/-- Ordering at the `load` call site (src/subatomic32.rs line 74). -/
def load_ordering : MemOrder := MemOrder.SeqCst

/-- Success ordering of `compare_exchange` (src/subatomic32.rs line 86). -/
def compare_exchange_success_ordering : MemOrder := MemOrder.SeqCst

/-- Failure ordering of `compare_exchange` (src/subatomic32.rs line 87). -/
def compare_exchange_failure_ordering : MemOrder := MemOrder.SeqCst

/-- Success ordering of `compare_exchange_weak` (src/subatomic32.rs line 101). -/
def compare_exchange_weak_success_ordering : MemOrder := MemOrder.SeqCst

/-- Failure ordering of `compare_exchange_weak` (src/subatomic32.rs line 102). -/
def compare_exchange_weak_failure_ordering : MemOrder := MemOrder.SeqCst

/-- `Subatomic32::new` (src/subatomic32.rs lines 50-56):
`assert!(size_of::<T>() == 4)` then store `transmute_copy(&item)`.  The
failed assertion (a panic) is `none`; the bit pattern is only ever taken
when the size check has passed. -/
def new {α : Type} (r : CopyRepr α) (item : α) : Option Subatomic32 :=
  if r.size = 4 then some ⟨AtomicU32.new (r.toBits item)⟩ else none

/-- `Subatomic32::store` (src/subatomic32.rs lines 59-62). -/
def store {α : Type} (r : CopyRepr α) (c : Subatomic32) (item : α) : Subatomic32 :=
  ⟨c.inner.store (r.toBits item) store_ordering⟩

/-- `Subatomic32::swap` (src/subatomic32.rs lines 65-70): the returned pair is
(previous value as `T`, updated cell). -/
def swap {α : Type} (r : CopyRepr α) (c : Subatomic32) (item : α) : α × Subatomic32 :=
  let out := c.inner.swap (r.toBits item) swap_ordering
  (r.ofBits out.1, ⟨out.2⟩)

/-- `Subatomic32::load` (src/subatomic32.rs lines 73-76). -/
def load {α : Type} (r : CopyRepr α) (c : Subatomic32) : α :=
  r.ofBits (c.inner.load load_ordering)

/-- `Subatomic32::compare_exchange` (src/subatomic32.rs lines 81-91): the
integer result is mapped back to `T` on both the `Ok` and `Err` sides. -/
def compare_exchange {α : Type} (r : CopyRepr α) (c : Subatomic32) (current nw : α) :
    Except α α × Subatomic32 :=
  let res := c.inner.compare_exchange (r.toBits current) (r.toBits nw)
    compare_exchange_success_ordering compare_exchange_failure_ordering
  ((res.1.map fun x => r.ofBits x).mapError (fun x => r.ofBits x), ⟨res.2⟩)

/-- `Subatomic32::compare_exchange_weak` (src/subatomic32.rs lines 96-106). -/
def compare_exchange_weak {α : Type} (r : CopyRepr α) (c : Subatomic32)
    (spurious : Bool) (current nw : α) : Except α α × Subatomic32 :=
  let res := c.inner.compare_exchange_weak spurious (r.toBits current) (r.toBits nw)
    compare_exchange_weak_success_ordering compare_exchange_weak_failure_ordering
  ((res.1.map fun x => r.ofBits x).mapError (fun x => r.ofBits x), ⟨res.2⟩)

/-- `impl Default for Subatomic32` (src/subatomic32.rs lines 16-20):
`Self::new(T::default())`.  `dflt` stands for `T::default()`. -/
def default_impl {α : Type} (r : CopyRepr α) (dflt : α) : Option Subatomic32 :=
  new r dflt

/-- `impl Serialize for Subatomic32` (src/subatomic32.rs lines 35-39):
serializes `self.load()`; the model returns the snapshot handed to the
serializer. -/
def serialize_impl {α : Type} (r : CopyRepr α) (c : Subatomic32) : α :=
  load r c

/-- `impl Deserialize for Subatomic32` (src/subatomic32.rs lines 42-46):
`Ok(Self::new(T::deserialize(deserializer)?))`.  The deserializer's outcome
is the `Option α` argument (`none` = its error, propagated by `?`); a `none`
result also covers the panic of `Self::new` on a size mismatch — either way
no cell is produced without passing the size check. -/
def deserialize_impl {α : Type} (r : CopyRepr α) (res : Option α) : Option Subatomic32 :=
  match res with
  | some t => new r t
  | none => none

/-- The impl items src/subatomic32.rs exposes for `Subatomic32`: `Default`
(line 16), `Debug` (line 22), `Display` (line 28), `Serialize` (line 35),
`Deserialize` (line 42), and the inherent methods `new`, `store`, `swap`,
`load`, `compare_exchange`, `compare_exchange_weak` (lines 48-107). -/
def items : List ApiItem :=
  [ApiItem.default_impl, ApiItem.debug_impl, ApiItem.display_impl,
   ApiItem.serialize_impl, ApiItem.deserialize_impl,
   ApiItem.new, ApiItem.store, ApiItem.swap, ApiItem.load,
   ApiItem.compare_exchange, ApiItem.compare_exchange_weak]

/-- The orderings passed at the seven atomic call sites of
src/subatomic32.rs. -/
def orderingsUsed : List MemOrder :=
  [store_ordering, swap_ordering, load_ordering,
   compare_exchange_success_ordering, compare_exchange_failure_ordering,
   compare_exchange_weak_success_ordering, compare_exchange_weak_failure_ordering]

end Subatomic32

/-- `Subatomic64<T>` (src/subatomic64.rs lines 8-11). -/
structure Subatomic64 where
  inner : AtomicU64
deriving DecidableEq

namespace Subatomic64

/-- Ordering at the `store` call site (src/subatomic64.rs line 26). -/
def store_ordering : MemOrder := MemOrder.SeqCst

/-- Ordering at the `swap` call site (src/subatomic64.rs line 33). -/
def swap_ordering : MemOrder := MemOrder.SeqCst

/-- Ordering at the `load` call site (src/subatomic64.rs line 39). -/
def load_ordering : MemOrder := MemOrder.SeqCst

/-- Success ordering of `compare_exchange` (src/subatomic64.rs line 51). -/
def compare_exchange_success_ordering : MemOrder := MemOrder.SeqCst

/-- Failure ordering of `compare_exchange` (src/subatomic64.rs line 52). -/
def compare_exchange_failure_ordering : MemOrder := MemOrder.SeqCst

/-- Success ordering of `compare_exchange_weak` (src/subatomic64.rs line 66). -/
def compare_exchange_weak_success_ordering : MemOrder := MemOrder.SeqCst

/-- Failure ordering of `compare_exchange_weak` (src/subatomic64.rs line 67). -/
def compare_exchange_weak_failure_ordering : MemOrder := MemOrder.SeqCst

/-- `Subatomic64::new` (src/subatomic64.rs lines 15-21):
`assert!(size_of::<T>() == 8)` then store `transmute_copy(&item)`. -/
def new {α : Type} (r : CopyRepr α) (item : α) : Option Subatomic64 :=
  if r.size = 8 then some ⟨AtomicU64.new (r.toBits item)⟩ else none

/-- `Subatomic64::store` (src/subatomic64.rs lines 24-27). -/
def store {α : Type} (r : CopyRepr α) (c : Subatomic64) (item : α) : Subatomic64 :=
  ⟨c.inner.store (r.toBits item) store_ordering⟩

/-- `Subatomic64::swap` (src/subatomic64.rs lines 30-35). -/
def swap {α : Type} (r : CopyRepr α) (c : Subatomic64) (item : α) : α × Subatomic64 :=
  let out := c.inner.swap (r.toBits item) swap_ordering
  (r.ofBits out.1, ⟨out.2⟩)

/-- `Subatomic64::load` (src/subatomic64.rs lines 38-41). -/
def load {α : Type} (r : CopyRepr α) (c : Subatomic64) : α :=
  r.ofBits (c.inner.load load_ordering)

/-- `Subatomic64::compare_exchange` (src/subatomic64.rs lines 46-56). -/
def compare_exchange {α : Type} (r : CopyRepr α) (c : Subatomic64) (current nw : α) :
    Except α α × Subatomic64 :=
  let res := c.inner.compare_exchange (r.toBits current) (r.toBits nw)
    compare_exchange_success_ordering compare_exchange_failure_ordering
  ((res.1.map fun x => r.ofBits x).mapError (fun x => r.ofBits x), ⟨res.2⟩)

/-- `Subatomic64::compare_exchange_weak` (src/subatomic64.rs lines 61-71). -/
def compare_exchange_weak {α : Type} (r : CopyRepr α) (c : Subatomic64)
    (spurious : Bool) (current nw : α) : Except α α × Subatomic64 :=
  let res := c.inner.compare_exchange_weak spurious (r.toBits current) (r.toBits nw)
    compare_exchange_weak_success_ordering compare_exchange_weak_failure_ordering
  ((res.1.map fun x => r.ofBits x).mapError (fun x => r.ofBits x), ⟨res.2⟩)

/-- The impl items src/subatomic64.rs exposes for `Subatomic64`: only the
inherent methods (lines 13-72).  The file has no `Default`, `Debug`,
`Display`, `Serialize` or `Deserialize` impl. -/
def items : List ApiItem :=
  [ApiItem.new, ApiItem.store, ApiItem.swap, ApiItem.load,
   ApiItem.compare_exchange, ApiItem.compare_exchange_weak]

/-- The orderings passed at the seven atomic call sites of
src/subatomic64.rs. -/
def orderingsUsed : List MemOrder :=
  [store_ordering, swap_ordering, load_ordering,
   compare_exchange_success_ordering, compare_exchange_failure_ordering,
   compare_exchange_weak_success_ordering, compare_exchange_weak_failure_ordering]

end Subatomic64

/-- All orderings passed to an atomic primitive anywhere in the crate. -/
def allOrderingsUsed : List MemOrder :=
  Subatomic32.orderingsUsed ++ Subatomic64.orderingsUsed

/-- Modelled from the spec: the single width-generic "atomic value cell"
design of spec §4.1, instantiated once per width `w` (in bytes).  This is the
spec-side definition for the refinement claim that the two width families
share one design; it is compared against `Subatomic32` (at `w = 4`) and
`Subatomic64` (at `w = 8`). -/
structure SubatomicSpec (w : Nat) where
  inner : Nat
deriving DecidableEq

namespace SubatomicSpec

/-- Spec §4.1 `construct`: check the exact-size precondition, then store the
byte-for-byte reinterpretation of the initial value. -/
def construct {α : Type} (w : Nat) (r : CopyRepr α) (item : α) :
    Option (SubatomicSpec w) :=
  if r.size = w then some ⟨r.toBits item % 2 ^ (8 * w)⟩ else none

/-- Spec §4.1 `store`. -/
def store {α : Type} {w : Nat} (r : CopyRepr α) (c : SubatomicSpec w) (item : α) :
    SubatomicSpec w :=
  ⟨r.toBits item % 2 ^ (8 * w)⟩

/-- Spec §4.1 `swap`: installs the new value and returns the prior one. -/
def swap {α : Type} {w : Nat} (r : CopyRepr α) (c : SubatomicSpec w) (item : α) :
    α × SubatomicSpec w :=
  (r.ofBits c.inner, ⟨r.toBits item % 2 ^ (8 * w)⟩)

/-- Spec §4.1 `load`. -/
def load {α : Type} {w : Nat} (r : CopyRepr α) (c : SubatomicSpec w) : α :=
  r.ofBits c.inner

/-- Spec §4.1 `compare_exchange`. -/
def compare_exchange {α : Type} {w : Nat} (r : CopyRepr α) (c : SubatomicSpec w)
    (current nw : α) : Except α α × SubatomicSpec w :=
  if c.inner = r.toBits current % 2 ^ (8 * w) then
    (Except.ok (r.ofBits c.inner), ⟨r.toBits nw % 2 ^ (8 * w)⟩)
  else (Except.error (r.ofBits c.inner), c)

/-- Spec §4.1 `compare_exchange_weak` with the spurious failure explicit. -/
def compare_exchange_weak {α : Type} {w : Nat} (r : CopyRepr α) (c : SubatomicSpec w)
    (spurious : Bool) (current nw : α) : Except α α × SubatomicSpec w :=
  if spurious then (Except.error (r.ofBits c.inner), c)
  else compare_exchange r c current nw

end SubatomicSpec

/-- View a `Subatomic32` as an instance of the width-generic design at
width 4. -/
def Subatomic32.toSpec (c : Subatomic32) : SubatomicSpec 4 :=
  ⟨c.inner.value⟩

/-- View a `Subatomic64` as an instance of the width-generic design at
width 8. -/
def Subatomic64.toSpec (c : Subatomic64) : SubatomicSpec 8 :=
  ⟨c.inner.value⟩

/-- Read a width-4 instance of the generic design back as a `Subatomic32`. -/
def SubatomicSpec.toSub32 (s : SubatomicSpec 4) : Subatomic32 :=
  ⟨⟨s.inner⟩⟩

/-- Read a width-8 instance of the generic design back as a `Subatomic64`. -/
def SubatomicSpec.toSub64 (s : SubatomicSpec 8) : Subatomic64 :=
  ⟨⟨s.inner⟩⟩

/-- The set of public operations the claim of an identical design says both
width families expose, one entry per operation it names (default construction
included). -/
def specClaimedOps : List ApiItem :=
  [ApiItem.new, ApiItem.default_impl, ApiItem.load, ApiItem.store,
   ApiItem.swap, ApiItem.compare_exchange, ApiItem.compare_exchange_weak]

/-- The core operations actually common to both width families. -/
def coreOps : List ApiItem :=
  [ApiItem.new, ApiItem.load, ApiItem.store, ApiItem.swap,
   ApiItem.compare_exchange, ApiItem.compare_exchange_weak]

/-- A concrete 4-byte plain-data type: the 32-bit bit patterns themselves. -/
def reprU32 : CopyRepr (Fin (2 ^ 32)) where
  size := 4
  toBits := Fin.val
  ofBits := fun n => ⟨n % 2 ^ 32, Nat.mod_lt n (by norm_num)⟩
  toBits_lt := fun a => a.isLt
  ofBits_toBits := fun a => Fin.ext (Nat.mod_eq_of_lt a.isLt)

/-- A concrete 8-byte plain-data type: the 64-bit bit patterns themselves. -/
def reprU64 : CopyRepr (Fin (2 ^ 64)) where
  size := 8
  toBits := Fin.val
  ofBits := fun n => ⟨n % 2 ^ 64, Nat.mod_lt n (by norm_num)⟩
  toBits_lt := fun a => a.isLt
  ofBits_toBits := fun a => Fin.ext (Nat.mod_eq_of_lt a.isLt)

/-- A concrete 2-byte plain-data type, whose size matches neither cell
width. -/
def reprU16 : CopyRepr (Fin (2 ^ 16)) where
  size := 2
  toBits := Fin.val
  ofBits := fun n => ⟨n % 2 ^ 16, Nat.mod_lt n (by norm_num)⟩
  toBits_lt := fun a => a.isLt
  ofBits_toBits := fun a => Fin.ext (Nat.mod_eq_of_lt a.isLt)

/-- Concrete sample value 5 of the 4-byte type. -/
def five32 : Fin (2 ^ 32) := ⟨5, by norm_num⟩

/-- Concrete sample value 7 of the 4-byte type. -/
def seven32 : Fin (2 ^ 32) := ⟨7, by norm_num⟩

/-- Concrete sample value 9 of the 4-byte type. -/
def nine32 : Fin (2 ^ 32) := ⟨9, by norm_num⟩

/-- Concrete sample value 5 of the 8-byte type. -/
def five64 : Fin (2 ^ 64) := ⟨5, by norm_num⟩

/-- Concrete sample value 7 of the 8-byte type. -/
def seven64 : Fin (2 ^ 64) := ⟨7, by norm_num⟩

/-- Concrete sample value 9 of the 8-byte type. -/
def nine64 : Fin (2 ^ 64) := ⟨9, by norm_num⟩

/-- Concrete sample value 3 of the 2-byte type. -/
def three16 : Fin (2 ^ 16) := ⟨3, by norm_num⟩

/-- A concrete live 32-bit cell holding bit pattern 7. -/
def cell32seven : Subatomic32 := ⟨⟨7⟩⟩

/-- A concrete live 64-bit cell holding bit pattern 7. -/
def cell64seven : Subatomic64 := ⟨⟨7⟩⟩

/-- If a representation has size 4, its bit patterns fit in a `u32`, so the
reduction modulo `2 ^ 32` performed by the `AtomicU32` model is the
identity on them. -/
theorem CopyRepr.mod32 {α : Type} (r : CopyRepr α) (h : r.size = 4) (a : α) :
    r.toBits a % 2 ^ 32 = r.toBits a := by
  have hx := r.toBits_lt a
  rw [h, show 8 * 4 = 32 from rfl] at hx
  exact Nat.mod_eq_of_lt hx

/-- If a representation has size 8, its bit patterns fit in a `u64`. -/
theorem CopyRepr.mod64 {α : Type} (r : CopyRepr α) (h : r.size = 8) (a : α) :
    r.toBits a % 2 ^ 64 = r.toBits a := by
  have hx := r.toBits_lt a
  rw [h, show 8 * 8 = 64 from rfl] at hx
  exact Nat.mod_eq_of_lt hx

/-- Closed form of `Subatomic32.compare_exchange` for an exactly-sized type:
compare the current bit pattern with the expected one; on success install the
new pattern, on failure leave the cell untouched; either way report the prior
value read back as `T`. -/
theorem Subatomic32.compare_exchange_eq_u32 {α : Type} (r : CopyRepr α) (h : r.size = 4)
    (c : Subatomic32) (current nw : α) :
    compare_exchange r c current nw =
      if c.inner.value = r.toBits current then
        (Except.ok (r.ofBits c.inner.value), ⟨⟨r.toBits nw % 2 ^ 32⟩⟩)
      else (Except.error (r.ofBits c.inner.value), c) := by
  unfold compare_exchange AtomicU32.compare_exchange
  rw [r.mod32 h]
  split
  · rfl
  · rfl

/-- Closed form of `Subatomic64.compare_exchange` for an exactly-sized
type. -/
theorem Subatomic64.compare_exchange_eq_u64 {α : Type} (r : CopyRepr α) (h : r.size = 8)
    (c : Subatomic64) (current nw : α) :
    compare_exchange r c current nw =
      if c.inner.value = r.toBits current then
        (Except.ok (r.ofBits c.inner.value), ⟨⟨r.toBits nw % 2 ^ 64⟩⟩)
      else (Except.error (r.ofBits c.inner.value), c) := by
  unfold compare_exchange AtomicU64.compare_exchange
  rw [r.mod64 h]
  split
  · rfl
  · rfl

/-- For an exactly-sized type, `Subatomic32::new` passes its assertion and
stores the value's bit pattern unchanged. -/
theorem Subatomic32.new_eq_u32 {α : Type} (r : CopyRepr α) (h : r.size = 4) (v : α) :
    new r v = some ⟨⟨r.toBits v⟩⟩ := by
  unfold new AtomicU32.new
  rw [if_pos h, r.mod32 h]

/-- For an exactly-sized type, `Subatomic64::new` passes its assertion and
stores the value's bit pattern unchanged. -/
theorem Subatomic64.new_eq_u64 {α : Type} (r : CopyRepr α) (h : r.size = 8) (v : α) :
    new r v = some ⟨⟨r.toBits v⟩⟩ := by
  unfold new AtomicU64.new
  rw [if_pos h, r.mod64 h]

/-- C1: for every Copy type whose size equals the cell width (4 bytes for the
32-bit cell, 8 bytes for the 64-bit cell) and every value, `load()`
immediately after construction with `new` returns the value unchanged — the
T-to-integer-to-T reinterpretation round-trips exactly. -/
theorem claim1_roundtrip_identity {α β : Type} (r4 : CopyRepr α) (r8 : CopyRepr β)
    (v : α) (w : β) (h4 : r4.size = 4) (h8 : r8.size = 8) :
    (Subatomic32.new r4 v).map (fun c => Subatomic32.load r4 c) = some v ∧
    (Subatomic64.new r8 w).map (fun c => Subatomic64.load r8 c) = some w := by
  constructor
  · rw [Subatomic32.new_eq_u32 r4 h4, Option.map_some']
    show some (r4.ofBits (r4.toBits v)) = some v
    rw [r4.ofBits_toBits]
  · rw [Subatomic64.new_eq_u64 r8 h8, Option.map_some']
    show some (r8.ofBits (r8.toBits w)) = some w
    rw [r8.ofBits_toBits]

/-- Witness for C1 at concrete inputs. -/
theorem claim1_witness :
    (Subatomic32.new reprU32 five32).map (fun c => Subatomic32.load reprU32 c) =
      some five32 ∧
    (Subatomic64.new reprU64 five64).map (fun c => Subatomic64.load reprU64 c) =
      some five64 :=
  claim1_roundtrip_identity reprU32 reprU64 five32 five64 rfl rfl

/-- C2: constructing a cell with a type whose size differs from the cell's
native width fails immediately (modelled as `none`, the panic of the
`assert!`), and no truncated or padded bit pattern is ever stored. -/
theorem claim2_size_mismatch_rejected {α β : Type} (r : CopyRepr α) (s : CopyRepr β)
    (v : α) (w : β) (h : r.size ≠ 4) (h8 : s.size ≠ 8) :
    Subatomic32.new r v = none ∧ Subatomic64.new s w = none := by
  constructor
  · simp [Subatomic32.new, h]
  · simp [Subatomic64.new, h8]

/-- Witness for C2: a 2-byte type is rejected by both width families. -/
theorem claim2_witness :
    Subatomic32.new reprU16 three16 = none ∧ Subatomic64.new reprU16 three16 = none :=
  claim2_size_mismatch_rejected reprU16 reprU16 three16 three16 (by decide) (by decide)

/-- C3: for exactly-sized types, `compare_exchange` fails if and only if the
cell's current bit pattern differs from the expected value's (never
spuriously); on failure it returns the actual current value — which differs
from the expected value whenever the cell holds the bytes of some previously
written value — and it leaves the cell unmodified. -/
theorem claim3_cas_failure_exact {α β : Type} (r4 : CopyRepr α) (r8 : CopyRepr β)
    (c : Subatomic32) (d : Subatomic64) (e4 n4 : α) (e8 n8 : β)
    (h4 : r4.size = 4) (h8 : r8.size = 8) :
    ((∃ x, (Subatomic32.compare_exchange r4 c e4 n4).1 = Except.error x) ↔
      c.inner.value ≠ r4.toBits e4) ∧
    (c.inner.value ≠ r4.toBits e4 →
      (Subatomic32.compare_exchange r4 c e4 n4).1 =
        Except.error (r4.ofBits c.inner.value) ∧
      (Subatomic32.compare_exchange r4 c e4 n4).2 = c) ∧
    (∀ w : α, c.inner.value = r4.toBits w → c.inner.value ≠ r4.toBits e4 →
      r4.ofBits c.inner.value ≠ e4) ∧
    ((∃ x, (Subatomic64.compare_exchange r8 d e8 n8).1 = Except.error x) ↔
      d.inner.value ≠ r8.toBits e8) ∧
    (d.inner.value ≠ r8.toBits e8 →
      (Subatomic64.compare_exchange r8 d e8 n8).1 =
        Except.error (r8.ofBits d.inner.value) ∧
      (Subatomic64.compare_exchange r8 d e8 n8).2 = d) ∧
    (∀ w : β, d.inner.value = r8.toBits w → d.inner.value ≠ r8.toBits e8 →
      r8.ofBits d.inner.value ≠ e8) := by
  refine ⟨?_, ?_, ?_, ?_, ?_, ?_⟩
  · rw [Subatomic32.compare_exchange_eq_u32 r4 h4]
    by_cases hEq : c.inner.value = r4.toBits e4 <;> simp [hEq]
  · intro hne
    rw [Subatomic32.compare_exchange_eq_u32 r4 h4, if_neg hne]
    exact ⟨rfl, rfl⟩
  · intro w hw hne
    rw [hw, r4.ofBits_toBits]
    exact fun hcontra => hne (hw.trans (by rw [hcontra]))
  · rw [Subatomic64.compare_exchange_eq_u64 r8 h8]
    by_cases hEq : d.inner.value = r8.toBits e8 <;> simp [hEq]
  · intro hne
    rw [Subatomic64.compare_exchange_eq_u64 r8 h8, if_neg hne]
    exact ⟨rfl, rfl⟩
  · intro w hw hne
    rw [hw, r8.ofBits_toBits]
    exact fun hcontra => hne (hw.trans (by rw [hcontra]))

/-- Witness for C3: a cell holding 7, expected 5 — the exchange fails, the
actual value 7 is returned, the cell is unchanged. -/
theorem claim3_witness :
    (Subatomic32.compare_exchange reprU32 cell32seven five32 nine32).1 =
      Except.error seven32 ∧
    (Subatomic32.compare_exchange reprU32 cell32seven five32 nine32).2 =
      cell32seven ∧
    (Subatomic64.compare_exchange reprU64 cell64seven five64 nine64).1 =
      Except.error seven64 ∧
    (Subatomic64.compare_exchange reprU64 cell64seven five64 nine64).2 =
      cell64seven := by
  have h := claim3_cas_failure_exact reprU32 reprU64 cell32seven cell64seven
    five32 nine32 five64 nine64 rfl rfl
  exact ⟨(h.2.1 (by decide)).1, (h.2.1 (by decide)).2,
    (h.2.2.2.2.1 (by decide)).1, (h.2.2.2.2.1 (by decide)).2⟩

/-- C4: after constructing a cell with `v1`, `compare_exchange(v1, v2)`
succeeds carrying a value byte-identical to `v1`, and a subsequent `load()`
returns `v2`, on both width families. -/
theorem claim4_cas_success {α β : Type} (r4 : CopyRepr α) (r8 : CopyRepr β)
    (v1 v2 : α) (w1 w2 : β) (h4 : r4.size = 4) (h8 : r8.size = 8) :
    (Subatomic32.new r4 v1).map (fun c =>
      ((Subatomic32.compare_exchange r4 c v1 v2).1,
        Subatomic32.load r4 (Subatomic32.compare_exchange r4 c v1 v2).2)) =
      some (Except.ok v1, v2) ∧
    (Subatomic64.new r8 w1).map (fun c =>
      ((Subatomic64.compare_exchange r8 c w1 w2).1,
        Subatomic64.load r8 (Subatomic64.compare_exchange r8 c w1 w2).2)) =
      some (Except.ok w1, w2) := by
  constructor
  · rw [Subatomic32.new_eq_u32 r4 h4, Option.map_some']
    rw [Subatomic32.compare_exchange_eq_u32 r4 h4,
      if_pos (show (Subatomic32.mk ⟨r4.toBits v1⟩).inner.value = r4.toBits v1 from rfl)]
    show some (Except.ok (r4.ofBits (r4.toBits v1)),
      r4.ofBits (r4.toBits v2 % 2 ^ 32)) = some (Except.ok v1, v2)
    rw [r4.mod32 h4, r4.ofBits_toBits, r4.ofBits_toBits]
  · rw [Subatomic64.new_eq_u64 r8 h8, Option.map_some']
    rw [Subatomic64.compare_exchange_eq_u64 r8 h8,
      if_pos (show (Subatomic64.mk ⟨r8.toBits w1⟩).inner.value = r8.toBits w1 from rfl)]
    show some (Except.ok (r8.ofBits (r8.toBits w1)),
      r8.ofBits (r8.toBits w2 % 2 ^ 64)) = some (Except.ok w1, w2)
    rw [r8.mod64 h8, r8.ofBits_toBits, r8.ofBits_toBits]

/-- Witness for C4 at concrete inputs. -/
theorem claim4_witness :
    (Subatomic32.new reprU32 five32).map (fun c =>
      ((Subatomic32.compare_exchange reprU32 c five32 nine32).1,
        Subatomic32.load reprU32 (Subatomic32.compare_exchange reprU32 c five32 nine32).2)) =
      some (Except.ok five32, nine32) ∧
    (Subatomic64.new reprU64 five64).map (fun c =>
      ((Subatomic64.compare_exchange reprU64 c five64 nine64).1,
        Subatomic64.load reprU64 (Subatomic64.compare_exchange reprU64 c five64 nine64).2)) =
      some (Except.ok five64, nine64) :=
  claim4_cas_success reprU32 reprU64 five32 nine32 five64 nine64 rfl rfl

/-- C5: after constructing a cell with `v1`, `swap(v2)` returns `v1` — the
value present immediately before the swap — and a subsequent `load()` returns
`v2`, on both width families. -/
theorem claim5_swap_prior_value {α β : Type} (r4 : CopyRepr α) (r8 : CopyRepr β)
    (v1 v2 : α) (w1 w2 : β) (h4 : r4.size = 4) (h8 : r8.size = 8) :
    (Subatomic32.new r4 v1).map (fun c =>
      ((Subatomic32.swap r4 c v2).1,
        Subatomic32.load r4 (Subatomic32.swap r4 c v2).2)) = some (v1, v2) ∧
    (Subatomic64.new r8 w1).map (fun c =>
      ((Subatomic64.swap r8 c w2).1,
        Subatomic64.load r8 (Subatomic64.swap r8 c w2).2)) = some (w1, w2) := by
  constructor
  · rw [Subatomic32.new_eq_u32 r4 h4, Option.map_some']
    show some (r4.ofBits (r4.toBits v1), r4.ofBits (r4.toBits v2 % 2 ^ 32)) =
      some (v1, v2)
    rw [r4.mod32 h4, r4.ofBits_toBits, r4.ofBits_toBits]
  · rw [Subatomic64.new_eq_u64 r8 h8, Option.map_some']
    show some (r8.ofBits (r8.toBits w1), r8.ofBits (r8.toBits w2 % 2 ^ 64)) =
      some (w1, w2)
    rw [r8.mod64 h8, r8.ofBits_toBits, r8.ofBits_toBits]

/-- Witness for C5 at concrete inputs. -/
theorem claim5_witness :
    (Subatomic32.new reprU32 five32).map (fun c =>
      ((Subatomic32.swap reprU32 c nine32).1,
        Subatomic32.load reprU32 (Subatomic32.swap reprU32 c nine32).2)) =
      some (five32, nine32) ∧
    (Subatomic64.new reprU64 five64).map (fun c =>
      ((Subatomic64.swap reprU64 c nine64).1,
        Subatomic64.load reprU64 (Subatomic64.swap reprU64 c nine64).2)) =
      some (five64, nine64) :=
  claim5_swap_prior_value reprU32 reprU64 five32 nine32 five64 nine64 rfl rfl

/-- C6: after constructing a cell with `v1` and then calling `store(v2)`,
`load()` returns exactly `v2`; `store` returns only the updated cell, so the
previous value is not observable through it. -/
theorem claim6_store_load_coherence {α β : Type} (r4 : CopyRepr α) (r8 : CopyRepr β)
    (v1 v2 : α) (w1 w2 : β) (h4 : r4.size = 4) (h8 : r8.size = 8) :
    (Subatomic32.new r4 v1).map (fun c =>
      Subatomic32.load r4 (Subatomic32.store r4 c v2)) = some v2 ∧
    (Subatomic64.new r8 w1).map (fun c =>
      Subatomic64.load r8 (Subatomic64.store r8 c w2)) = some w2 := by
  constructor
  · rw [Subatomic32.new_eq_u32 r4 h4, Option.map_some']
    show some (r4.ofBits (r4.toBits v2 % 2 ^ 32)) = some v2
    rw [r4.mod32 h4, r4.ofBits_toBits]
  · rw [Subatomic64.new_eq_u64 r8 h8, Option.map_some']
    show some (r8.ofBits (r8.toBits w2 % 2 ^ 64)) = some w2
    rw [r8.mod64 h8, r8.ofBits_toBits]

/-- Witness for C6 at concrete inputs. -/
theorem claim6_witness :
    (Subatomic32.new reprU32 five32).map (fun c =>
      Subatomic32.load reprU32 (Subatomic32.store reprU32 c nine32)) = some nine32 ∧
    (Subatomic64.new reprU64 five64).map (fun c =>
      Subatomic64.load reprU64 (Subatomic64.store reprU64 c nine64)) = some nine64 :=
  claim6_store_load_coherence reprU32 reprU64 five32 nine32 five64 nine64 rfl rfl

/-- C7 counterexample: the claim asserts default construction is available for
each width family, but src/subatomic64.rs contains no `Default` impl — the
64-bit family has no default construction. -/
theorem claim7_counterexample : ApiItem.default_impl ∉ Subatomic64.items := by
  decide

/-- C7 amended: default construction exists only for the 32-bit family, where
it is exactly `Self::new(T::default())`, so it followed by `load()` yields the
canonical default value; the 64-bit family does not provide it. -/
theorem claim7_default_amended {α : Type} (r : CopyRepr α) (dflt : α)
    (h : r.size = 4) :
    ApiItem.default_impl ∈ Subatomic32.items ∧
    ApiItem.default_impl ∉ Subatomic64.items ∧
    Subatomic32.default_impl r dflt = Subatomic32.new r dflt ∧
    (Subatomic32.default_impl r dflt).map (fun c => Subatomic32.load r c) =
      some dflt := by
  refine ⟨by decide, by decide, rfl, ?_⟩
  rw [show Subatomic32.default_impl r dflt = Subatomic32.new r dflt from rfl,
    Subatomic32.new_eq_u32 r h, Option.map_some']
  show some (r.ofBits (r.toBits dflt)) = some dflt
  rw [r.ofBits_toBits]

/-- Witness for the amended C7 at concrete inputs. -/
theorem claim7_witness :
    ApiItem.default_impl ∈ Subatomic32.items ∧
    ApiItem.default_impl ∉ Subatomic64.items ∧
    Subatomic32.default_impl reprU32 five32 = Subatomic32.new reprU32 five32 ∧
    (Subatomic32.default_impl reprU32 five32).map
      (fun c => Subatomic32.load reprU32 c) = some five32 :=
  claim7_default_amended reprU32 five32 rfl

/-- C9: every ordering passed at any of the fourteen atomic call sites in the
crate — including both the success and the failure orderings of the two
compare-exchange operations on both width families — is `SeqCst`; the public
operations take no ordering parameter, so no weaker ordering is offered. -/
theorem claim9_seqcst_everywhere : ∀ o ∈ allOrderingsUsed, o = MemOrder.SeqCst := by
  decide

/-- Witness for C9 at a concrete call site. -/
theorem claim9_witness : Subatomic32.store_ordering = MemOrder.SeqCst :=
  claim9_seqcst_everywhere Subatomic32.store_ordering (by decide)

/-- C10: every construction path — `new`, the `Default` impl and the serde
`Deserialize` impl on the 32-bit family, and `new` on the 64-bit family
(its only construction path) — yields a cell only when the exact-size
assertion holds, and the assertion is checked before the bit pattern is ever
taken, so every live cell's type has exactly the cell's width and the
reinterpretations inside the operations only run for such types. -/
theorem claim10_size_invariant {α β : Type} (r4 : CopyRepr α) (r8 : CopyRepr β) :
    (∀ (v : α) (c : Subatomic32), Subatomic32.new r4 v = some c → r4.size = 4) ∧
    (∀ (d : α) (c : Subatomic32),
      Subatomic32.default_impl r4 d = some c → r4.size = 4) ∧
    (∀ (ov : Option α) (c : Subatomic32),
      Subatomic32.deserialize_impl r4 ov = some c → r4.size = 4) ∧
    (∀ (w : β) (c : Subatomic64), Subatomic64.new r8 w = some c → r8.size = 8) := by
  have h32 : ∀ (v : α) (c : Subatomic32),
      Subatomic32.new r4 v = some c → r4.size = 4 := by
    intro v c hc
    by_cases h : r4.size = 4
    · exact h
    · unfold Subatomic32.new at hc
      rw [if_neg h] at hc
      exact Option.noConfusion hc
  refine ⟨h32, fun d c hc => h32 d c hc, ?_, ?_⟩
  · intro ov c hc
    cases ov with
    | none => exact Option.noConfusion hc
    | some t => exact h32 t c hc
  · intro w c hc
    by_cases h : r8.size = 8
    · exact h
    · unfold Subatomic64.new at hc
      rw [if_neg h] at hc
      exact Option.noConfusion hc

/-- Witness for C10 at concrete inputs. -/
theorem claim10_witness : reprU32.size = 4 ∧ reprU64.size = 8 := by
  have h := claim10_size_invariant reprU32 reprU64
  exact ⟨h.1 five32 ⟨⟨5⟩⟩ rfl, h.2.2.2 five64 ⟨⟨5⟩⟩ rfl⟩

/-- C8 counterexample: the claim's common operation set includes default
construction, but the 64-bit family does not expose it, so the two families
do not expose the same set of public operations. -/
theorem claim8_counterexample :
    ApiItem.default_impl ∈ specClaimedOps ∧
    ApiItem.default_impl ∉ Subatomic64.items := by
  decide

/-- C8 amended: the two width families expose the same core operations (`new`,
`load`, `store`, `swap`, `compare_exchange`, `compare_exchange_weak`) with the
same semantics — each family's operations agree with the single width-generic
design `SubatomicSpec` at its width — and neither depends on the other; but
the 32-bit family additionally implements default construction (along with
`Debug`, `Display` and serde impls), which the 64-bit family lacks. -/
theorem claim8_same_design_amended {α β : Type} (r4 : CopyRepr α) (r8 : CopyRepr β) :
    (∀ i ∈ coreOps, i ∈ Subatomic32.items ∧ i ∈ Subatomic64.items) ∧
    ApiItem.default_impl ∈ Subatomic32.items ∧
    ApiItem.default_impl ∉ Subatomic64.items ∧
    (∀ v : α, Subatomic32.new r4 v =
      (SubatomicSpec.construct 4 r4 v).map SubatomicSpec.toSub32) ∧
    (∀ (c : Subatomic32) (v : α),
      (Subatomic32.store r4 c v).toSpec = SubatomicSpec.store r4 c.toSpec v) ∧
    (∀ (c : Subatomic32) (v : α),
      ((Subatomic32.swap r4 c v).1, (Subatomic32.swap r4 c v).2.toSpec) =
        SubatomicSpec.swap r4 c.toSpec v) ∧
    (∀ c : Subatomic32, Subatomic32.load r4 c = SubatomicSpec.load r4 c.toSpec) ∧
    (∀ (c : Subatomic32) (a b : α),
      ((Subatomic32.compare_exchange r4 c a b).1,
        (Subatomic32.compare_exchange r4 c a b).2.toSpec) =
        SubatomicSpec.compare_exchange r4 c.toSpec a b) ∧
    (∀ (c : Subatomic32) (sp : Bool) (a b : α),
      ((Subatomic32.compare_exchange_weak r4 c sp a b).1,
        (Subatomic32.compare_exchange_weak r4 c sp a b).2.toSpec) =
        SubatomicSpec.compare_exchange_weak r4 c.toSpec sp a b) ∧
    (∀ w : β, Subatomic64.new r8 w =
      (SubatomicSpec.construct 8 r8 w).map SubatomicSpec.toSub64) ∧
    (∀ (c : Subatomic64) (w : β),
      (Subatomic64.store r8 c w).toSpec = SubatomicSpec.store r8 c.toSpec w) ∧
    (∀ (c : Subatomic64) (w : β),
      ((Subatomic64.swap r8 c w).1, (Subatomic64.swap r8 c w).2.toSpec) =
        SubatomicSpec.swap r8 c.toSpec w) ∧
    (∀ c : Subatomic64, Subatomic64.load r8 c = SubatomicSpec.load r8 c.toSpec) ∧
    (∀ (c : Subatomic64) (a b : β),
      ((Subatomic64.compare_exchange r8 c a b).1,
        (Subatomic64.compare_exchange r8 c a b).2.toSpec) =
        SubatomicSpec.compare_exchange r8 c.toSpec a b) ∧
    (∀ (c : Subatomic64) (sp : Bool) (a b : β),
      ((Subatomic64.compare_exchange_weak r8 c sp a b).1,
        (Subatomic64.compare_exchange_weak r8 c sp a b).2.toSpec) =
        SubatomicSpec.compare_exchange_weak r8 c.toSpec sp a b) := by
  have ce32 : ∀ (c : Subatomic32) (a b : α),
      ((Subatomic32.compare_exchange r4 c a b).1,
        (Subatomic32.compare_exchange r4 c a b).2.toSpec) =
        SubatomicSpec.compare_exchange r4 c.toSpec a b := by
    intro c a b
    simp only [Subatomic32.compare_exchange, AtomicU32.compare_exchange,
      SubatomicSpec.compare_exchange, Subatomic32.toSpec]
    by_cases h : c.inner.value = r4.toBits a % 2 ^ 32
    · rw [if_pos h, if_pos (show c.inner.value = r4.toBits a % 2 ^ (8 * 4) from h)]
      rfl
    · rw [if_neg h, if_neg (show ¬(c.inner.value = r4.toBits a % 2 ^ (8 * 4)) from h)]
      rfl
  have ce64 : ∀ (c : Subatomic64) (a b : β),
      ((Subatomic64.compare_exchange r8 c a b).1,
        (Subatomic64.compare_exchange r8 c a b).2.toSpec) =
        SubatomicSpec.compare_exchange r8 c.toSpec a b := by
    intro c a b
    simp only [Subatomic64.compare_exchange, AtomicU64.compare_exchange,
      SubatomicSpec.compare_exchange, Subatomic64.toSpec]
    by_cases h : c.inner.value = r8.toBits a % 2 ^ 64
    · rw [if_pos h, if_pos (show c.inner.value = r8.toBits a % 2 ^ (8 * 8) from h)]
      rfl
    · rw [if_neg h, if_neg (show ¬(c.inner.value = r8.toBits a % 2 ^ (8 * 8)) from h)]
      rfl
  refine ⟨by decide, by decide, by decide, ?_, fun c v => rfl, fun c v => rfl,
    fun c => rfl, ce32, ?_, ?_, fun c w => rfl, fun c w => rfl, fun c => rfl,
    ce64, ?_⟩
  · intro v
    unfold Subatomic32.new SubatomicSpec.construct AtomicU32.new
    by_cases h : r4.size = 4
    · rw [if_pos h, if_pos h, Option.map_some']
      rfl
    · rw [if_neg h, if_neg h]
      rfl
  · intro c sp a b
    cases sp
    · exact ce32 c a b
    · rfl
  · intro w
    unfold Subatomic64.new SubatomicSpec.construct AtomicU64.new
    by_cases h : r8.size = 8
    · rw [if_pos h, if_pos h, Option.map_some']
      rfl
    · rw [if_neg h, if_neg h]
      rfl
  · intro c sp a b
    cases sp
    · exact ce64 c a b
    · rfl

/-- Witness for the amended C8 at concrete inputs. -/
theorem claim8_witness :
    (ApiItem.load ∈ Subatomic32.items ∧ ApiItem.load ∈ Subatomic64.items) ∧
    Subatomic32.new reprU32 five32 =
      (SubatomicSpec.construct 4 reprU32 five32).map SubatomicSpec.toSub32 ∧
    Subatomic64.new reprU64 five64 =
      (SubatomicSpec.construct 8 reprU64 five64).map SubatomicSpec.toSub64 := by
  have h := claim8_same_design_amended reprU32 reprU64
  exact ⟨h.1 ApiItem.load (by decide), h.2.2.2.1 five32,
    h.2.2.2.2.2.2.2.2.2.1 five64⟩
